import Mathlib

/-!
Formal model of the deriv-teletrader command router (pkg/core, pkg/prov/llm,
and the legacy main.go telegram bot), with theorems checking the system
specification against the code.

Modelling conventions:
* Go `float64` amounts are modelled as exact decimal numbers `Dec`
  (an integer mantissa times a power of ten).  Every amount in the router
  originates from a decimal string (`strconv.ParseFloat`) and is only ever
  formatted back with `%.2f`, so exact decimal arithmetic matches the
  observable behaviour on all inputs whose two-decimal rounding is not a
  tie introduced by binary representation error.
* `strconv.ParseFloat` is modelled on the finite decimal fragment of its
  grammar (optional sign, digits, optional fraction, optional exponent);
  the `Inf`/`NaN`/hex-float/underscore forms and the float64 range check
  are outside the model.
* `fmt.Sprintf("%.2f", x)` is modelled by `formatF2`: round the value to
  two decimal places (ties to even, as IEEE 754 formatting does on the
  exact value) and print sign, integer digits, a dot and two digits.
* Maps are modelled by association lists / membership lists; collaborator
  interfaces (Deriv client, LLM client) are modelled as oracles giving the
  result of each operation, and every handler additionally returns the
  list of collaborator calls it performed, in order.
* Go's `(result, error)` pairs are modelled as `Except String Response`;
  library error strings that the code merely wraps are abbreviated where
  their exact text is irrelevant (noted locally).
-/

namespace DerivTeletrader

/-! ### Exact decimal numbers, modelling Go float64 amounts -/

/-- An exact decimal number `mant * 10 ^ exp`, modelling a Go `float64`
amount (all amounts in this program are parsed from decimal strings). -/
structure Dec where
  mant : ℤ
  exp : ℤ
deriving DecidableEq

/-- Character for a single decimal digit (`0 ≤ n ≤ 9`). -/
def digitChar (n : ℕ) : Char :=
  match n with
  | 0 => '0' | 1 => '1' | 2 => '2' | 3 => '3' | 4 => '4'
  | 5 => '5' | 6 => '6' | 7 => '7' | 8 => '8' | _ => '9'

/-- Numeric value of a list of decimal digit characters (most significant
first), as read by `strconv.ParseFloat`'s digit scanner. -/
def digitsVal (cs : List Char) : ℕ :=
  cs.foldl (fun a c => 10 * a + (c.toNat - 48)) 0

/-- Fuel-driven digit printer: prepends the decimal digits of `n` to `acc`.
Structural recursion on the fuel keeps it kernel-reducible. -/
def natToDigitsAux : ℕ → ℕ → List Char → List Char
  | 0, _, acc => acc
  | fuel + 1, n, acc =>
    if n < 10 then digitChar n :: acc
    else natToDigitsAux fuel (n / 10) (digitChar (n % 10) :: acc)

/-- Decimal digit string of a natural number (no sign, no leading zeros),
as produced by `fmt.Sprintf` for the integer part of a number. -/
def natToDigits (n : ℕ) : List Char :=
  natToDigitsAux (n + 1) n []

/-- Exactly two decimal digits for `r < 100`, the fractional part printed
by `%.2f`. -/
def twoDigits (r : ℕ) : List Char :=
  [digitChar (r / 10 % 10), digitChar (r % 10)]

/-- Longest digit prefix and the remainder, modelling the digit scanning
inside `strconv.ParseFloat`. -/
def spanDigits : List Char → List Char × List Char
  | [] => ([], [])
  | c :: cs =>
    if c.isDigit then
      let p := spanDigits cs
      (c :: p.1, p.2)
    else ([], c :: cs)

/-- Exponent digits after `e`/`E` and an optional exponent sign: all the
remaining characters must be digits. -/
def parseExpDigits (mant fracLen : ℕ) (sgn : ℤ) (r : List Char) : Option Dec :=
  let p := spanDigits r
  if p.1.isEmpty || !p.2.isEmpty then none
  else some ⟨(mant : ℤ), sgn * (digitsVal p.1 : ℤ) - (fracLen : ℤ)⟩

/-- Optional exponent part of a float literal (`e`/`E`, optional sign,
digits); without an exponent the value is `mant * 10 ^ (-fracLen)`. -/
def parseExp (mant fracLen : ℕ) : List Char → Option Dec
  | [] => some ⟨(mant : ℤ), -(fracLen : ℤ)⟩
  | c :: rest =>
    if c = 'e' ∨ c = 'E' then
      match rest with
      | '+' :: r2 => parseExpDigits mant fracLen 1 r2
      | '-' :: r2 => parseExpDigits mant fracLen (-1) r2
      | r2 => parseExpDigits mant fracLen 1 r2
    else none

/-- Unsigned part of the `strconv.ParseFloat` grammar: digits, an optional
dot with further digits (at least one digit in total), and an optional
exponent; anything left over (or an empty mantissa) is a syntax error. -/
def parseFloatCore (cs : List Char) : Option Dec :=
  match spanDigits cs with
  | (ipart, r1) =>
    match r1 with
    | '.' :: rest =>
      match spanDigits rest with
      | (fpart, r2) =>
        if ipart.isEmpty && fpart.isEmpty then none
        else parseExp (digitsVal ipart * 10 ^ fpart.length + digitsVal fpart) fpart.length r2
    | _ =>
      if ipart.isEmpty then none
      else parseExp (digitsVal ipart) 0 r1

/-- Model of `strconv.ParseFloat(s, 64)` on the finite decimal fragment of
its grammar, returning the exact decimal value.  An optional leading sign
is peeled off first; the `' '` sentinel for the empty string leads to the
unsigned branch, which rejects the empty input. -/
def parseFloat (s : String) : Option Dec :=
  if s.data.headD ' ' = '+' then parseFloatCore s.data.tail
  else if s.data.headD ' ' = '-' then
    (parseFloatCore s.data.tail).map (fun d => ⟨-d.mant, d.exp⟩)
  else parseFloatCore s.data

/-- Round `a / p` to the nearest integer, ties to even (`p > 0`). -/
def roundHalfEvenNat (a p : ℕ) : ℕ :=
  let n := a / p
  let r := a % p
  if 2 * r < p then n
  else if p < 2 * r then n + 1
  else if n % 2 = 0 then n else n + 1

/-- Magnitude of a decimal value scaled by 100 and rounded to the nearest
integer (ties to even): the number printed by `%.2f` without the dot. -/
def roundScaled (d : Dec) : ℕ :=
  if 0 ≤ d.exp + 2 then d.mant.natAbs * 10 ^ (d.exp + 2).toNat
  else roundHalfEvenNat d.mant.natAbs (10 ^ (-(d.exp + 2)).toNat)

/-- Model of `fmt.Sprintf("%.2f", x)`: optional sign, the integer digits,
a dot and exactly two fractional digits. -/
def formatF2 (d : Dec) : String :=
  String.mk ((if d.mant < 0 then ['-'] else []) ++
    natToDigits (roundScaled d / 100) ++ '.' :: twoDigits (roundScaled d % 100))

/-- The value carried by the `%.2f` rendering of `d`: `d` rounded to two
decimal places, ties to even. -/
def round2 (d : Dec) : Dec :=
  ⟨if d.mant < 0 then -(roundScaled d : ℤ) else (roundScaled d : ℤ), -2⟩

/-- Model of `fmt.Sprintf("%d", z)` for integers. -/
def intToString (z : ℤ) : String :=
  String.mk ((if z < 0 then ['-'] else []) ++ natToDigits z.natAbs)

/-- Go conversion `int(x)` of a float64: truncation toward zero. -/
def f64toInt (d : Dec) : ℤ :=
  if 0 ≤ d.exp then d.mant * 10 ^ d.exp.toNat
  else Int.tdiv d.mant (10 ^ (-d.exp).toNat)

/-- Rational value denoted by a `Dec` (for value-level statements only;
all executable code works on `Dec` directly). -/
def Dec.toQ (d : Dec) : ℚ := (d.mant : ℚ) * (10 : ℚ) ^ d.exp

/-- Mathematical round-half-even on the rationals, used to state that the
integer arithmetic of `roundScaled` implements the intended rounding. -/
def rhe (x : ℚ) : ℤ :=
  if x - ⌊x⌋ < 1 / 2 then ⌊x⌋
  else if 1 / 2 < x - ⌊x⌋ then ⌊x⌋ + 1
  else if Even ⌊x⌋ then ⌊x⌋ else ⌊x⌋ + 1

/-! ### Strings: append/mk helpers, callback tokens, suffix test -/

/-- Split a character list at every colon (`strings.Split(s, ":")`). -/
def splitCh : List Char → List (List Char)
  | [] => [[]]
  | c :: cs =>
    let r := splitCh cs
    if c = ':' then [] :: r
    else (c :: r.headD []) :: r.tail

/-- Split a string at every colon. -/
def splitColon (s : String) : List String :=
  (splitCh s.data).map String.mk

/-- Modelled from the spec: `ParseCallbackData` is referenced by `handleBuy`
but its definition is not among the sources; per the spec the CallbackToken
wire format is "ASCII, colon-separated, fields in fixed order
`action:symbol:amount:direction-suffix`".  We model it as the map from
field name to the corresponding colon-separated part, with the Go map's
empty-string default for absent fields and unknown keys. -/
def ParseCallbackData (s : String) : String → String := fun key =>
  let parts := splitColon s
  match key with
  | "action" => parts.getD 0 ""
  | "symbol" => parts.getD 1 ""
  | "amount" => parts.getD 2 ""
  | "direction" => parts.getD 3 ""
  | _ => ""

/-- Model of `strings.HasSuffix`. -/
def hasSuffixStr (s t : String) : Bool :=
  List.isPrefixOf t.data.reverse s.data.reverse

/-- Substring containment, used to state what a reply text contains. -/
def containsStr (s sub : String) : Prop :=
  ∃ l r, s.data = l ++ sub.data ++ r

/-! ### Data model (pkg/core) -/

/-- A button of an inline keyboard row (`core.Button`). -/
structure Button where
  Text : String
  CallbackData : String
deriving DecidableEq

/-- A chat message with parsed command and arguments (`core.Message`).
The `CallbackData` field does not appear in the historical snapshot of
`pkg/core/bot.go` kept in the sources, but it is constructed by the
transport adapter (`pkg/telegram/bot.go`) and consumed by `handleBuy`. -/
structure Message where
  Command : String := ""
  Args : List String := []
  ChatID : ℤ := 0
  MessageID : ℤ := 0
  Username : String := ""
  CallbackData : String := ""
deriving DecidableEq

/-- A response to a chat message (`core.Response`); `Buttons` likewise
comes from the button-based snapshot of the handlers. -/
structure Response where
  Text : String
  ReplyToMessageID : ℤ
  ChatID : ℤ
  Buttons : List (List Button) := []
deriving DecidableEq

/-- Balance amount and currency (`core.BalanceInfo`). -/
structure BalanceInfo where
  Amount : Dec
  Currency : String
deriving DecidableEq

/-- Parameters of a historical-data request (`core.HistoricalDataRequest`);
`TimeInterval` and `DataStyle` are string wrappers in the source. -/
structure HistoricalDataRequest where
  Symbol : String
  Interval : String
  Style : String
  Count : ℤ
deriving DecidableEq

/-- A single historical data point (`core.HistoricalDataPoint`). -/
structure HistoricalDataPoint where
  Timestamp : ℤ
  Price : Dec
  High : Dec
  Low : Dec
  Open : Dec
  Close : Dec
deriving DecidableEq

/-- One collaborator operation performed during a dispatch; handlers return
the list of these so that "no brokerage/LLM call occurs" is expressible. -/
inductive CollabCall where
  | getBalance
  | getPrice (symbol : String)
  | placeTrade (symbol : String) (amount : Dec) (direction : String)
  | getPosition
  | getHistoricalData (req : HistoricalDataRequest)
  | getAvailableSymbols
  | llmProcessWithFunctions (text : String)
deriving DecidableEq

/-- Oracle for `core.MarketDataProvider`: the result each market-data
operation would return if called. -/
structure MarketDataProvider where
  GetHistoricalData : HistoricalDataRequest → Except String (List HistoricalDataPoint)
  GetPrice : String → Except String Dec
  GetAvailableSymbols : Except String (List String)

/-- Oracle for the full `core.DerivClient` interface (embeds the
market-data provider). -/
structure DerivEnv extends MarketDataProvider where
  GetBalance : Except String BalanceInfo
  PlaceTrade : String → Dec → String → Except String Unit
  GetPosition : Except String String

/-- Oracle for `core.LLMClient`'s tool-augmented completion. -/
structure LLMEnv where
  ProcessWithFunctions : String → Except String String

/-- The bot's immutable state (`core.Bot`): allow-list and symbol list;
the collaborator clients are passed as oracles. -/
structure Bot where
  allowedUsers : List String
  symbols : List String

/-- Result of a handler: Go's `(*Response, error)` plus the trace of
collaborator calls. -/
abbrev HandlerResult := Except String Response × List CollabCall

instance {α β : Type} [DecidableEq α] [DecidableEq β] : DecidableEq (Except α β) :=
  fun x y =>
    match x, y with
    | .ok a, .ok b =>
      if h : a = b then isTrue (by rw [h]) else isFalse (by simp [h])
    | .error a, .error b =>
      if h : a = b then isTrue (by rw [h]) else isFalse (by simp [h])
    | .ok _, .error _ => isFalse (by simp)
    | .error _, .ok _ => isFalse (by simp)

/-! ### Command handlers (pkg/core command handlers, button-based snapshot) -/

/-- Handler for `/start`. -/
def handleStart (msg : Message) : HandlerResult :=
  (.ok ⟨"👋 Welcome to Deriv Trading Bot!\n\nUse /help to see available commands.",
        msg.MessageID, msg.ChatID, []⟩, [])

/-- Handler for `/help`. -/
def handleHelp (msg : Message) : HandlerResult :=
  (.ok ⟨"Available commands:\n\n/symbols - List available trading symbols\n/balance - Show account balance\n/price <symbol> - Get current price for a symbol\n/buy <symbol> <amount> - Place a trade (Up/Down)\n/position - Show current positions\n\nExample:\n1. /buy R_50 10.50\n2. Select Up ⬆️ or Down ⬇️",
        msg.MessageID, msg.ChatID, []⟩, [])

/-- Handler for `/symbols`: pure formatting of the configured symbol list. -/
def handleSymbols (b : Bot) (msg : Message) : HandlerResult :=
  (.ok ⟨"Available symbols:\n\n" ++ String.intercalate "\n" b.symbols,
        msg.MessageID, msg.ChatID, []⟩, [])

/-- Handler for `/balance`: one `GetBalance` call, `%.2f` formatting. -/
def handleBalance (env : DerivEnv) (msg : Message) : HandlerResult :=
  match env.GetBalance with
  | .error e => (.error ("failed to get balance: " ++ e), [.getBalance])
  | .ok balance =>
    (.ok ⟨"💰 Balance: " ++ formatF2 balance.Amount ++ " " ++ balance.Currency,
          msg.MessageID, msg.ChatID, []⟩, [.getBalance])

/-- Handler for `/price <symbol>`: argument check, one `GetPrice` call. -/
def handlePrice (env : DerivEnv) (msg : Message) : HandlerResult :=
  if msg.Args.length < 1 then
    (.ok ⟨"❌ Please provide a symbol. Example: /price R_50",
          msg.MessageID, msg.ChatID, []⟩, [])
  else
    let symbol := msg.Args.getD 0 ""
    match env.GetPrice symbol with
    | .error e => (.error ("failed to get price: " ++ e), [.getPrice symbol])
    | .ok price =>
      (.ok ⟨"💹 " ++ symbol ++ " price: " ++ formatF2 price,
            msg.MessageID, msg.ChatID, []⟩, [.getPrice symbol])

/-- Handler for `/buy`: with callback data present it is the second step of
the trade dialogue (decode token, map the `:down` suffix to PUT and
everything else to CALL, place the trade); without callback data it is the
first step (parse `<symbol> <amount>`, answer with Up/Down buttons and
perform no collaborator call).  The wrapped `strconv` error text is
reproduced for concreteness; only its error-ness matters below. -/
def handleBuy (env : DerivEnv) (msg : Message) : HandlerResult :=
  if msg.CallbackData ≠ "" then
    let data := ParseCallbackData msg.CallbackData
    if data "action" ≠ "trade" then
      (.error ("invalid callback action: " ++ data "action"), [])
    else
      let symbol := data "symbol"
      match parseFloat (data "amount") with
      | none =>
        (.error ("invalid amount in callback: strconv.ParseFloat: parsing \"" ++
                 data "amount" ++ "\": invalid syntax"), [])
      | some amount =>
        let direction := if hasSuffixStr msg.CallbackData ":down" then "PUT" else "CALL"
        match env.PlaceTrade symbol amount direction with
        | .error e =>
          (.error ("failed to place trade: " ++ e), [.placeTrade symbol amount direction])
        | .ok _ =>
          let directionEmoji := if direction = "PUT" then "⬇️" else "⬆️"
          (.ok ⟨"✅ " ++ directionEmoji ++ " Trade placed for " ++ symbol ++ ": $" ++
                  formatF2 amount,
                msg.MessageID, msg.ChatID, []⟩,
           [.placeTrade symbol amount direction])
  else if msg.Args.length < 2 then
    (.ok ⟨"❌ Please provide symbol and amount. Example: /buy R_50 10.50",
          msg.MessageID, msg.ChatID, []⟩, [])
  else
    let symbol := msg.Args.getD 0 ""
    match parseFloat (msg.Args.getD 1 "") with
    | none =>
      (.ok ⟨"❌ Invalid amount format. Please provide a number.",
            msg.MessageID, msg.ChatID, []⟩, [])
    | some amount =>
      let callbackBase := "trade:" ++ symbol ++ ":" ++ formatF2 amount
      (.ok ⟨"🎯 Place a trade for " ++ symbol ++ ": $" ++ formatF2 amount ++
              "\nSelect direction:",
            msg.MessageID, msg.ChatID,
            [[⟨"Up ⬆️", callbackBase ++ ":up"⟩, ⟨"Down ⬇️", callbackBase ++ ":down"⟩]]⟩,
       [])

/-- Handler for `/sell` from the older snapshot of the handlers file; it is
still registered in `NewBot`'s handler table. -/
def handleSell (env : DerivEnv) (msg : Message) : HandlerResult :=
  if msg.Args.length < 2 then
    (.ok ⟨"❌ Please provide symbol and amount. Example: /sell R_50 10.50",
          msg.MessageID, msg.ChatID, []⟩, [])
  else
    let symbol := msg.Args.getD 0 ""
    match parseFloat (msg.Args.getD 1 "") with
    | none =>
      (.ok ⟨"❌ Invalid amount format. Please provide a number.",
            msg.MessageID, msg.ChatID, []⟩, [])
    | some amount =>
      match env.PlaceTrade symbol amount "PUT" with
      | .error e =>
        (.error ("failed to place sell order: " ++ e), [.placeTrade symbol amount "PUT"])
      | .ok _ =>
        (.ok ⟨"✅ Sell order placed for " ++ symbol ++ ": $" ++ formatF2 amount,
              msg.MessageID, msg.ChatID, []⟩, [.placeTrade symbol amount "PUT"])

/-- Handler for `/position`: one `GetPosition` call. -/
def handlePosition (env : DerivEnv) (msg : Message) : HandlerResult :=
  match env.GetPosition with
  | .error e => (.error ("failed to get position: " ++ e), [.getPosition])
  | .ok position =>
    (.ok ⟨"📊 Current positions:\n\n" ++ position,
          msg.MessageID, msg.ChatID, []⟩, [.getPosition])

/-! ### The dispatcher (core.Bot.ProcessMessage) -/

/-- Membership test of the bot's allow-list map (`core.Bot.isUserAllowed`):
empty username is denied, otherwise exact lookup of the username among the
keys inserted by `NewBot` (which inserts the configured names verbatim). -/
def isUserAllowed (b : Bot) (username : String) : Bool :=
  if username = "" then false else b.allowedUsers.contains username

/-- Dispatcher `core.Bot.ProcessMessage`.  The authorization gate, the
free-text branch and the command table are from `pkg/core/bot.go` (the
static handler map is modelled as a total lookup by command name).  The
callback-routing step is modelled from the spec: the snapshot of
`pkg/core/bot.go` in the sources predates callback support, although the
transport adapter delivers `CallbackData` and `handleBuy` consumes it; per
spec §4.2 step 2, a message with callback data whose decoded action is
`trade` is remapped onto the `buy` handler, and other messages continue
through the command/free-text steps. -/
def ProcessMessage (b : Bot) (denv : DerivEnv) (lenv : LLMEnv) (msg : Message) :
    HandlerResult :=
  if isUserAllowed b msg.Username then
    if msg.CallbackData ≠ "" ∧ ParseCallbackData msg.CallbackData "action" = "trade" then
      handleBuy denv msg
    else if msg.Command = "" then
      let text := String.intercalate " " msg.Args
      if text = "" then
        (.ok ⟨"❌ Please provide some text for me to process.",
              msg.MessageID, msg.ChatID, []⟩, [])
      else
        match lenv.ProcessWithFunctions text with
        | .error e => (.error ("failed to process text: " ++ e), [.llmProcessWithFunctions text])
        | .ok response =>
          (.ok ⟨response, msg.MessageID, msg.ChatID, []⟩, [.llmProcessWithFunctions text])
    else
      match msg.Command with
      | "start" => handleStart msg
      | "help" => handleHelp msg
      | "symbols" => handleSymbols b msg
      | "balance" => handleBalance denv msg
      | "price" => handlePrice denv msg
      | "buy" => handleBuy denv msg
      | "sell" => handleSell denv msg
      | "position" => handlePosition denv msg
      | _ =>
        (.ok ⟨"❌ Unknown command. Type /help for available commands.",
              msg.MessageID, msg.ChatID, []⟩, [])
  else
    (.ok ⟨"⚠️ You are not authorized to use this bot.",
          msg.MessageID, msg.ChatID, []⟩, [])

/-! ### Legacy authorization (main.go telegram bot) -/

/-- Lower-casing of one character, modelling `strings.ToLower` on the
ASCII range (Telegram usernames are ASCII). -/
def charToLower (c : Char) : Char :=
  if 'A' ≤ c ∧ c ≤ 'Z' then Char.ofNat (c.toNat + 32) else c

/-- Model of `strings.ToLower`. -/
def toLowerStr (s : String) : String :=
  String.mk (s.data.map charToLower)

/-- Allow-list map keys as built by the legacy `NewBot` in `main.go`:
every configured username is lower-cased on insertion. -/
def legacyAllowedUsers (users : List String) : List String :=
  users.map toLowerStr

/-- Legacy `isUserAllowed` from `main.go`: empty username denied, otherwise
the lower-cased username is looked up in the lower-cased map. -/
def legacyIsUserAllowed (users : List String) (username : String) : Bool :=
  if username = "" then false
  else (legacyAllowedUsers users).contains (toLowerStr username)

/-! ### LLM tool bridge (pkg/prov/llm executeFunction) -/

/-- A JSON value as decoded by `encoding/json` into `interface{}`:
numbers become float64 (here `Dec`), everything else keeps its shape. -/
inductive JSONValue where
  | str (s : String)
  | num (x : Dec)
  | boolean (b : Bool)
  | null
  | arr (xs : List JSONValue)
  | obj (fields : List (String × JSONValue))

/-- A function call request decoded from the model's reply
(`core.LLMFunctionCall`). -/
structure LLMFunctionCall where
  Name : String
  Arguments : List (String × JSONValue)

/-- Lookup in the decoded `Arguments` map. -/
def lookupArg : List (String × JSONValue) → String → Option JSONValue
  | [], _ => none
  | (k, v) :: rest, key => if k = key then some v else lookupArg rest key

/-- Go type assertion `args[key].(string)`: succeeds exactly when the key
is present and bound to a string. -/
def argString (args : List (String × JSONValue)) (key : String) : Option String :=
  match lookupArg args key with
  | some (.str s) => some s
  | _ => none

/-- Go type assertion `args[key].(float64)`. -/
def argNum (args : List (String × JSONValue)) (key : String) : Option Dec :=
  match lookupArg args key with
  | some (.num x) => some x
  | _ => none

/-- One line of the historical-data result text (`%d` timestamps and
`%.2f` prices, candle fields when the request style is `candles`). -/
def formatHistoricalPoint (style : String) (p : HistoricalDataPoint) : String :=
  if style = "candles" then
    "Time: " ++ intToString p.Timestamp ++ ", Open: " ++ formatF2 p.Open ++
      ", High: " ++ formatF2 p.High ++ ", Low: " ++ formatF2 p.Low ++
      ", Close: " ++ formatF2 p.Close ++ "\n"
  else
    "Time: " ++ intToString p.Timestamp ++ ", Price: " ++ formatF2 p.Price ++ "\n"

/-- The text built for a successful `get_historical_data` call. -/
def formatHistoricalData (symbol interval style : String)
    (data : List HistoricalDataPoint) : String :=
  "Historical data for " ++ symbol ++ " (" ++ interval ++ ", " ++ style ++ "):\n" ++
    String.join (data.map (formatHistoricalPoint style))

/-- Model of `llm.Client.executeFunction`: dispatch on the function name
(the Go `switch` becomes an if-chain), with `symbol` required and
`interval`/`style`/`count` defaulting to `hour`/`candles`/`10` when absent
or of the wrong type. -/
def executeFunction (provider : MarketDataProvider) (call : LLMFunctionCall) :
    Except String String × List CollabCall :=
  if call.Name = "get_price" then
    match argString call.Arguments "symbol" with
    | none => (.error "invalid symbol argument", [])
    | some symbol =>
      match provider.GetPrice symbol with
      | .error e => (.error ("failed to get price: " ++ e), [.getPrice symbol])
      | .ok price =>
        (.ok ("Current price for " ++ symbol ++ ": " ++ formatF2 price), [.getPrice symbol])
  else if call.Name = "get_historical_data" then
    match argString call.Arguments "symbol" with
    | none => (.error "invalid symbol argument", [])
    | some symbol =>
      let interval := (argString call.Arguments "interval").getD "hour"
      let style := (argString call.Arguments "style").getD "candles"
      let count := (argNum call.Arguments "count").getD ⟨10, 0⟩
      let req : HistoricalDataRequest := ⟨symbol, interval, style, f64toInt count⟩
      match provider.GetHistoricalData req with
      | .error e =>
        (.error ("failed to get historical data: " ++ e), [.getHistoricalData req])
      | .ok data =>
        (.ok (formatHistoricalData symbol interval style data), [.getHistoricalData req])
  else
    (.error ("unknown function: " ++ call.Name), [])

/-! ### Concrete oracles for ground examples -/

/-- A collaborator oracle where every operation succeeds with a fixed
result; used to evaluate the model on concrete inputs. -/
def stubDerivEnv : DerivEnv where
  GetHistoricalData := fun _ => .ok []
  GetPrice := fun _ => .ok ⟨12345, -2⟩
  GetAvailableSymbols := .ok ["R_50"]
  GetBalance := .ok ⟨⟨100050, -2⟩, "USD"⟩
  PlaceTrade := fun _ _ _ => .ok ()
  GetPosition := .ok "No open positions"

/-- An LLM oracle answering every prompt with a fixed text. -/
def stubLLMEnv : LLMEnv where
  ProcessWithFunctions := fun _ => .ok "stub answer"

/-! ### Lemmas: decimal digits -/

theorem digitChar_isDigit {n : ℕ} (h : n < 10) : (digitChar n).isDigit = true := by
  interval_cases n <;> decide

theorem charVal_digitChar {n : ℕ} (h : n < 10) : (digitChar n).toNat - 48 = n := by
  interval_cases n <;> decide

theorem digitsVal_append_singleton (l : List Char) (c : Char) :
    digitsVal (l ++ [c]) = 10 * digitsVal l + (c.toNat - 48) := by
  simp [digitsVal, List.foldl_append]

theorem natToDigitsAux_acc (fuel : ℕ) :
    ∀ n acc, natToDigitsAux fuel n acc = natToDigitsAux fuel n [] ++ acc := by
  induction fuel with
  | zero => intro n acc; simp [natToDigitsAux]
  | succ fuel ih =>
    intro n acc
    by_cases h : n < 10
    · simp [natToDigitsAux, h]
    · simp only [natToDigitsAux, if_neg h]
      rw [ih (n / 10) (digitChar (n % 10) :: acc), ih (n / 10) [digitChar (n % 10)]]
      simp

theorem natToDigits_ne_nil (n : ℕ) : natToDigits n ≠ [] := by
  unfold natToDigits
  by_cases h : n < 10
  · simp [natToDigitsAux, h]
  · simp only [natToDigitsAux, if_neg h]
    rw [natToDigitsAux_acc]
    simp

theorem natToDigitsAux_isDigit (fuel : ℕ) :
    ∀ n acc, (∀ c ∈ acc, c.isDigit = true) →
      ∀ c ∈ natToDigitsAux fuel n acc, c.isDigit = true := by
  induction fuel with
  | zero => intro n acc hacc; exact hacc
  | succ fuel ih =>
    intro n acc hacc c hc
    by_cases h : n < 10
    · simp only [natToDigitsAux, if_pos h] at hc
      rcases List.mem_cons.mp hc with h1 | h1
      · exact h1 ▸ digitChar_isDigit h
      · exact hacc c h1
    · simp only [natToDigitsAux, if_neg h] at hc
      refine ih (n / 10) (digitChar (n % 10) :: acc) ?_ c hc
      intro x hx
      rcases List.mem_cons.mp hx with h1 | h1
      · exact h1 ▸ digitChar_isDigit (Nat.mod_lt n (by norm_num))
      · exact hacc x h1

theorem natToDigits_isDigit (n : ℕ) : ∀ c ∈ natToDigits n, c.isDigit = true :=
  natToDigitsAux_isDigit (n + 1) n [] (by simp)

theorem digitsVal_natToDigitsAux :
    ∀ fuel n, n < 10 ^ fuel → digitsVal (natToDigitsAux fuel n []) = n := by
  intro fuel
  induction fuel with
  | zero =>
    intro n h
    have : n = 0 := by omega
    subst this
    simp [natToDigitsAux, digitsVal]
  | succ fuel ih =>
    intro n h
    by_cases h10 : n < 10
    · simp only [natToDigitsAux, if_pos h10]
      show digitsVal [digitChar n] = n
      simp [digitsVal, charVal_digitChar h10]
    · simp only [natToDigitsAux, if_neg h10]
      rw [natToDigitsAux_acc, digitsVal_append_singleton]
      have hdiv : n / 10 < 10 ^ fuel := by
        rw [Nat.div_lt_iff_lt_mul (by norm_num)]
        calc n < 10 ^ (fuel + 1) := h
          _ = 10 ^ fuel * 10 := by ring
      rw [ih (n / 10) hdiv, charVal_digitChar (Nat.mod_lt n (by norm_num))]
      omega

theorem digitsVal_natToDigits (n : ℕ) : digitsVal (natToDigits n) = n := by
  refine digitsVal_natToDigitsAux (n + 1) n ?_
  calc n < 2 ^ n := Nat.lt_two_pow n
    _ ≤ 10 ^ n := Nat.pow_le_pow_left (by norm_num) n
    _ ≤ 10 ^ (n + 1) := Nat.pow_le_pow_right (by norm_num) (Nat.le_succ n)

theorem twoDigits_isDigit (r : ℕ) : ∀ c ∈ twoDigits r, c.isDigit = true := by
  intro c hc
  rcases List.mem_cons.mp hc with h1 | h1
  · exact h1 ▸ digitChar_isDigit (Nat.mod_lt _ (by norm_num))
  · rcases List.mem_cons.mp h1 with h2 | h2
    · exact h2 ▸ digitChar_isDigit (Nat.mod_lt _ (by norm_num))
    · simp at h2

theorem digitsVal_twoDigits {r : ℕ} (h : r < 100) : digitsVal (twoDigits r) = r := by
  have h1 : r / 10 < 10 := by omega
  have e1 : r / 10 % 10 = r / 10 := Nat.mod_eq_of_lt h1
  simp only [twoDigits, digitsVal, List.foldl_cons, List.foldl_nil, e1]
  rw [Nat.mul_zero, Nat.zero_add, charVal_digitChar h1,
    charVal_digitChar (Nat.mod_lt _ (by norm_num))]
  omega

/-! ### Lemmas: digit scanning -/

theorem spanDigits_all :
    ∀ l : List Char, (∀ c ∈ l, c.isDigit = true) → spanDigits l = (l, []) := by
  intro l
  induction l with
  | nil => intro _; rfl
  | cons c cs ih =>
    intro h
    simp only [spanDigits, h c (List.mem_cons_self c cs), if_pos]
    rw [ih (fun x hx => h x (List.mem_cons_of_mem c hx))]

theorem spanDigits_stop :
    ∀ (l : List Char) (x : Char) (r : List Char), (∀ c ∈ l, c.isDigit = true) →
      x.isDigit = false → spanDigits (l ++ x :: r) = (l, x :: r) := by
  intro l x r hl hx
  induction l with
  | nil => simp [spanDigits, hx]
  | cons c cs ih =>
    simp only [List.cons_append, spanDigits, hl c (List.mem_cons_self c cs), if_pos]
    rw [show cs.append (x :: r) = cs ++ x :: r from rfl,
      ih (fun y hy => hl y (List.mem_cons_of_mem c hy))]

/-! ### Lemmas: the `%.2f` / `ParseFloat` round trip -/

theorem isEmpty_natToDigits (n : ℕ) : (natToDigits n).isEmpty = false := by
  cases h : natToDigits n with
  | nil => exact absurd h (natToDigits_ne_nil n)
  | cons c t => rfl

theorem parseFloatCore_print (n r : ℕ) (hr : r < 100) :
    parseFloatCore (natToDigits n ++ '.' :: twoDigits r) =
      some ⟨((n * 100 + r : ℕ) : ℤ), -2⟩ := by
  have h1 := spanDigits_stop (natToDigits n) '.' (twoDigits r) (natToDigits_isDigit n)
    (by decide)
  have h2 := spanDigits_all (twoDigits r) (twoDigits_isDigit r)
  have hlen : (twoDigits r).length = 2 := rfl
  simp only [parseFloatCore, h1, h2, isEmpty_natToDigits, Bool.false_and, Bool.false_eq_true,
    if_false, parseExp, digitsVal_natToDigits, digitsVal_twoDigits hr, hlen,
    Option.some.injEq, Dec.mk.injEq]
  norm_num

/-- Rounding the value of a natural number changes nothing. -/
theorem rhe_natCast (N : ℕ) : rhe ((N : ℚ)) = (N : ℤ) := by
  unfold rhe
  rw [Int.floor_natCast]
  rw [if_pos (by push_cast; norm_num)]

/-- Faithfulness of the `%.2f` scaling arithmetic: `roundScaled d` is the
round-half-even of the exact value `|d| * 100`. -/
theorem roundScaled_eq_rhe (d : Dec) : (roundScaled d : ℤ) = rhe (|Dec.toQ d| * 100) := by
  have habs : |Dec.toQ d| * 100 = (d.mant.natAbs : ℚ) * (10 : ℚ) ^ (d.exp + 2) := by
    unfold Dec.toQ
    rw [abs_mul]
    rw [show |((d.mant : ℚ))| = (d.mant.natAbs : ℚ) by rw [Int.cast_natAbs, Int.cast_abs]]
    rw [show |(10 : ℚ) ^ d.exp| = (10 : ℚ) ^ d.exp from
      abs_of_pos (zpow_pos (by norm_num) _)]
    rw [mul_assoc]
    congr 1
    rw [show (100 : ℚ) = (10 : ℚ) ^ (2 : ℤ) by norm_num, ← zpow_add₀ (by norm_num : (10:ℚ) ≠ 0)]
  unfold roundScaled
  by_cases hk : 0 ≤ d.exp + 2
  · rw [if_pos hk, habs]
    have hzx : (10 : ℚ) ^ (d.exp + 2) = (10 : ℚ) ^ ((d.exp + 2).toNat) := by
      rw [← zpow_natCast, Int.toNat_of_nonneg hk]
    rw [hzx]
    rw [show (d.mant.natAbs : ℚ) * (10 : ℚ) ^ (d.exp + 2).toNat =
        ((d.mant.natAbs * 10 ^ (d.exp + 2).toNat : ℕ) : ℚ) by push_cast; ring]
    rw [rhe_natCast]
  · rw [if_neg hk]
    set a := d.mant.natAbs with hadef
    set k := (-(d.exp + 2)).toNat with hkdef
    set p := 10 ^ k with hpdef
    have hp : 0 < p := by positivity
    have hpQ : (0 : ℚ) < (p : ℚ) := by exact_mod_cast hp
    have hpne : (p : ℚ) ≠ 0 := ne_of_gt hpQ
    have hzx : (10 : ℚ) ^ (d.exp + 2) = ((p : ℚ))⁻¹ := by
      have hek : d.exp + 2 = -(k : ℤ) := by
        rw [hkdef]; omega
      rw [hek, zpow_neg, zpow_natCast]
      congr 1
      rw [hpdef]
      push_cast
      ring
    rw [habs, hzx]
    set r := a % p with hrdef
    have hsplit2 : (p : ℚ) * ((a / p : ℕ) : ℚ) + ((r : ℕ) : ℚ) = (a : ℚ) := by
      exact_mod_cast congrArg (Nat.cast : ℕ → ℚ) (Nat.div_add_mod a p)
    have hx : (a : ℚ) * ((p : ℚ))⁻¹ = ((a / p : ℕ) : ℚ) + ((r : ℕ) : ℚ) / (p : ℚ) := by
      field_simp
      linarith [hsplit2]
    have hfr0 : (0 : ℚ) ≤ ((r : ℕ) : ℚ) / (p : ℚ) := by positivity
    have hfr1 : ((r : ℕ) : ℚ) / (p : ℚ) < 1 := by
      rw [div_lt_one hpQ]
      exact_mod_cast Nat.mod_lt a hp
    have hfloor : ⌊(a : ℚ) * ((p : ℚ))⁻¹⌋ = ((a / p : ℕ) : ℤ) := by
      rw [hx, show ((a / p : ℕ) : ℚ) = (((a / p : ℕ) : ℤ) : ℚ) by rw [Int.cast_natCast],
        Int.floor_int_add, Int.floor_eq_zero_iff.mpr ⟨hfr0, hfr1⟩, add_zero]
    have hfract : (a : ℚ) * ((p : ℚ))⁻¹ - ((((a / p : ℕ) : ℤ)) : ℚ) =
        ((r : ℕ) : ℚ) / (p : ℚ) := by
      rw [hx, Int.cast_natCast]
      ring
    have key1 : (((r : ℕ) : ℚ) / (p : ℚ) < 1 / 2) ↔ 2 * r < p := by
      rw [div_lt_div_iff₀ hpQ (by norm_num : (0 : ℚ) < 2),
        show ((r : ℕ) : ℚ) * 2 = ((2 * r : ℕ) : ℚ) by push_cast; ring,
        show (1 : ℚ) * (p : ℚ) = ((p : ℕ) : ℚ) by ring]
      exact Nat.cast_lt
    have key2 : ((1 : ℚ) / 2 < ((r : ℕ) : ℚ) / (p : ℚ)) ↔ p < 2 * r := by
      rw [div_lt_div_iff₀ (by norm_num : (0 : ℚ) < 2) hpQ,
        show (1 : ℚ) * (p : ℚ) = ((p : ℕ) : ℚ) by ring,
        show ((r : ℕ) : ℚ) * 2 = ((2 * r : ℕ) : ℚ) by push_cast; ring]
      exact Nat.cast_lt
    have key3 : Even ((a / p : ℕ) : ℤ) ↔ (a / p) % 2 = 0 := by
      rw [Int.even_coe_nat, Nat.even_iff]
    unfold rhe roundHalfEvenNat
    rw [hfloor, hfract]
    simp only [key1, key2, key3]
    split_ifs <;> push_cast <;> ring

theorem parseFloat_formatF2 (d : Dec) : parseFloat (formatF2 d) = some (round2 d) := by
  have hr : roundScaled d % 100 < 100 := Nat.mod_lt _ (by norm_num)
  have hsplit : roundScaled d / 100 * 100 + roundScaled d % 100 = roundScaled d := by omega
  by_cases hneg : d.mant < 0
  · have hdata : (formatF2 d).data =
        '-' :: (natToDigits (roundScaled d / 100) ++ '.' :: twoDigits (roundScaled d % 100)) := by
      simp [formatF2, if_pos hneg]
    unfold parseFloat
    rw [hdata]
    simp only [List.headD_cons, List.tail_cons]
    rw [if_neg (by decide : ¬ ('-' = '+')), if_pos trivial, parseFloatCore_print _ _ hr]
    simp only [Option.map_some']
    unfold round2
    rw [if_pos hneg]
    congr 1
    rw [hsplit]
  · have hdata : (formatF2 d).data =
        natToDigits (roundScaled d / 100) ++ '.' :: twoDigits (roundScaled d % 100) := by
      simp [formatF2, if_neg hneg]
    obtain ⟨c, t, hct⟩ : ∃ c t, natToDigits (roundScaled d / 100) = c :: t := by
      cases h : natToDigits (roundScaled d / 100) with
      | nil => exact absurd h (natToDigits_ne_nil _)
      | cons c t => exact ⟨c, t, rfl⟩
    have hcdig : c.isDigit = true :=
      natToDigits_isDigit _ c (by rw [hct]; exact List.mem_cons_self c t)
    have hcp : ¬ (c = '+') := by
      intro h; rw [h] at hcdig; exact absurd hcdig (by decide)
    have hcm : ¬ (c = '-') := by
      intro h; rw [h] at hcdig; exact absurd hcdig (by decide)
    unfold parseFloat
    rw [hdata, hct, List.cons_append]
    simp only [List.headD_cons, List.tail_cons]
    rw [if_neg hcp, if_neg hcm, ← List.cons_append, ← hct, parseFloatCore_print _ _ hr]
    unfold round2
    rw [if_neg hneg]
    congr 1
    rw [hsplit]

/-! ### Lemmas: callback tokens -/

/-- Data of a concatenation is the concatenation of the data. -/
theorem strData_append (a b : String) : (a ++ b).data = a.data ++ b.data := by
  cases a
  cases b
  rfl

/-- Rebuilding a string from its character list is the identity. -/
theorem strMk_data (s : String) : String.mk s.data = s := by
  cases s
  rfl

theorem strExt {s t : String} (h : s.data = t.data) : s = t := by
  cases s
  cases t
  cases h
  rfl

theorem strAppend_assoc (a b c : String) : a ++ b ++ c = a ++ (b ++ c) := by
  refine strExt ?_
  simp [strData_append, List.append_assoc]

theorem splitCh_no_colon : ∀ l : List Char, ':' ∉ l → splitCh l = [l] := by
  intro l
  induction l with
  | nil => intro _; rfl
  | cons c cs ih =>
    intro h
    have hc : ¬ (c = ':') := fun hc => h (hc ▸ List.mem_cons_self c cs)
    have hcs : ':' ∉ cs := fun hx => h (List.mem_cons_of_mem c hx)
    simp only [splitCh, if_neg hc, ih hcs]
    rfl

theorem splitCh_prefix_colon :
    ∀ a b : List Char, ':' ∉ a → splitCh (a ++ ':' :: b) = a :: splitCh b := by
  intro a b
  induction a with
  | nil => intro _; simp [splitCh]
  | cons c cs ih =>
    intro h
    have hc : ¬ (c = ':') := fun hc => h (hc ▸ List.mem_cons_self c cs)
    have hcs : ':' ∉ cs := fun hx => h (List.mem_cons_of_mem c hx)
    simp only [List.cons_append, splitCh, if_neg hc]
    rw [show cs.append (':' :: b) = cs ++ ':' :: b from rfl, ih hcs]
    rfl

theorem splitColon_token (sym amt dir : String)
    (hs : ':' ∉ sym.data) (ha : ':' ∉ amt.data) (hd : ':' ∉ dir.data) :
    splitColon ("trade:" ++ sym ++ ":" ++ amt ++ ":" ++ dir) = ["trade", sym, amt, dir] := by
  unfold splitColon
  have hdata : ("trade:" ++ sym ++ ":" ++ amt ++ ":" ++ dir).data =
      ['t', 'r', 'a', 'd', 'e'] ++ ':' :: (sym.data ++ ':' :: (amt.data ++ ':' :: dir.data)) := by
    simp only [strData_append]
    simp [List.append_assoc]
  rw [hdata, splitCh_prefix_colon _ _ (by decide), splitCh_prefix_colon _ _ hs,
    splitCh_prefix_colon _ _ ha, splitCh_no_colon _ hd]
  simp [strMk_data]

theorem parseCallback_fields (sym amt dir : String)
    (hs : ':' ∉ sym.data) (ha : ':' ∉ amt.data) (hd : ':' ∉ dir.data) :
    ParseCallbackData ("trade:" ++ sym ++ ":" ++ amt ++ ":" ++ dir) "action" = "trade" ∧
    ParseCallbackData ("trade:" ++ sym ++ ":" ++ amt ++ ":" ++ dir) "symbol" = sym ∧
    ParseCallbackData ("trade:" ++ sym ++ ":" ++ amt ++ ":" ++ dir) "amount" = amt ∧
    ParseCallbackData ("trade:" ++ sym ++ ":" ++ amt ++ ":" ++ dir) "direction" = dir := by
  have h := splitColon_token sym amt dir hs ha hd
  refine ⟨?_, ?_, ?_, ?_⟩ <;> simp [ParseCallbackData, h]

theorem hasSuffix_down (s : String) : hasSuffixStr (s ++ ":down") ":down" = true := by
  unfold hasSuffixStr
  rw [strData_append, List.reverse_append]
  show List.isPrefixOf ['n', 'w', 'o', 'd', ':'] (['n', 'w', 'o', 'd', ':'] ++ s.data.reverse) =
    true
  simp [ List.isPrefixOf_iff_prefix, List.prefix_append]

theorem hasSuffix_up_not_down (s : String) :
    hasSuffixStr (s ++ ":up") ":down" = false := by
  unfold hasSuffixStr
  rw [strData_append, List.reverse_append]
  show List.isPrefixOf ['n', 'w', 'o', 'd', ':'] (['p', 'u', ':'] ++ s.data.reverse) = false
  simp [List.isPrefixOf]

theorem colon_not_mem_formatF2 (d : Dec) : ':' ∉ (formatF2 d).data := by
  intro h
  simp only [formatF2] at h
  rcases List.mem_append.mp h with h1 | h1
  · rcases List.mem_append.mp h1 with h2 | h2
    · by_cases hneg : d.mant < 0
      · rw [if_pos hneg] at h2
        simp at h2
      · rw [if_neg hneg] at h2
        simp at h2
    · exact absurd (natToDigits_isDigit _ ':' h2) (by decide)
  · rcases List.mem_cons.mp h1 with h3 | h3
    · exact absurd h3 (by decide)
    · exact absurd (twoDigits_isDigit _ ':' h3) (by decide)

/-! ### Claim theorems -/

/-- C1: for every incoming message whose username is not in the AllowList
(including the empty username), `ProcessMessage` returns the fixed
unauthorized response text with the triggering message's chatID and
messageID, returns no error, and invokes no brokerage or LLM collaborator
operation. -/
theorem unauthorized_short_circuit (b : Bot) (denv : DerivEnv) (lenv : LLMEnv)
    (msg : Message) (h : msg.Username ∉ b.allowedUsers ∨ msg.Username = "") :
    ProcessMessage b denv lenv msg =
      (.ok ⟨"⚠️ You are not authorized to use this bot.", msg.MessageID, msg.ChatID, []⟩,
       []) := by
  have hfalse : isUserAllowed b msg.Username = false := by
    unfold isUserAllowed
    by_cases he : msg.Username = ""
    · rw [if_pos he]
    · rw [if_neg he]
      rcases h with h | h
      · simp [List.contains, List.elem_iff, h]
      · exact absurd h he
  unfold ProcessMessage
  rw [hfalse]
  simp

/-- Witness for C1 at a concrete unauthorized message. -/
theorem unauthorized_short_circuit_witness :
    ProcessMessage ⟨["alice"], ["R_50"]⟩ stubDerivEnv stubLLMEnv
        ⟨"buy", ["R_50", "10"], 5, 7, "bob", ""⟩ =
      (.ok ⟨"⚠️ You are not authorized to use this bot.", 7, 5, []⟩, []) :=
  unauthorized_short_circuit ⟨["alice"], ["R_50"]⟩ stubDerivEnv stubLLMEnv
    ⟨"buy", ["R_50", "10"], 5, 7, "bob", ""⟩ (Or.inl (by decide))

/-- C2 counterexample: in the final (pkg/core) bot the authorization check
is not case-insensitive: `alice` differs from the allow-list entry `Alice`
only in letter case and is nevertheless denied (while the legacy main.go
check allows it). -/
theorem core_auth_not_case_insensitive :
    isUserAllowed ⟨["Alice"], []⟩ "alice" = false ∧
    toLowerStr "alice" = toLowerStr "Alice" ∧
    legacyIsUserAllowed ["Alice"] "alice" = true := by decide

/-- C2 (amended): the empty username is always denied by both
implementations; the legacy `main.go` check is case-insensitive (a username
is allowed exactly when some AllowList entry lower-cases to the same
string), while the final `pkg/core` check is an exact, case-sensitive
membership test. -/
theorem authorization_case_rules :
    (∀ users u, legacyIsUserAllowed users u = true ↔
      (u ≠ "" ∧ ∃ e ∈ users, toLowerStr e = toLowerStr u)) ∧
    (∀ b : Bot, ∀ u, isUserAllowed b u = true ↔ (u ≠ "" ∧ u ∈ b.allowedUsers)) := by
  constructor
  · intro users u
    unfold legacyIsUserAllowed legacyAllowedUsers
    by_cases he : u = ""
    · simp [he]
    · rw [if_neg he]
      simp [he, List.contains, List.elem_iff, List.mem_map]
  · intro b u
    unfold isUserAllowed
    by_cases he : u = ""
    · simp [he]
    · rw [if_neg he]
      simp [he, List.contains, List.elem_iff]

/-- Witness for C2 (amended): a case-variant of an allow-list entry is
allowed by the legacy check, and an exact entry is allowed by the core
check. -/
theorem authorization_case_rules_witness :
    legacyIsUserAllowed ["Alice"] "aLiCe" = true ∧
    isUserAllowed ⟨["Alice"], []⟩ "Alice" = true :=
  ⟨(authorization_case_rules.1 ["Alice"] "aLiCe").mpr
      ⟨by decide, "Alice", by decide, by decide⟩,
   (authorization_case_rules.2 ⟨["Alice"], []⟩ "Alice").mpr ⟨by decide, by decide⟩⟩

/-- C5: for every `/buy` invocation whose second positional argument does
not parse as a number, the handler returns a normal response whose text is
the invalid-amount message, returns no error, and performs no collaborator
call (in particular no PlaceTrade). -/
theorem buy_invalid_amount (denv : DerivEnv) (msg : Message) (sym amt : String)
    (rest : List String) (hcb : msg.CallbackData = "")
    (hargs : msg.Args = sym :: amt :: rest) (hbad : parseFloat amt = none) :
    handleBuy denv msg =
      (.ok ⟨"❌ Invalid amount format. Please provide a number.",
            msg.MessageID, msg.ChatID, []⟩, []) := by
  simp [handleBuy, hcb, hargs, hbad]

/-- Witness for C5: `/buy R_50 abc`. -/
theorem buy_invalid_amount_witness :
    handleBuy stubDerivEnv ⟨"buy", ["R_50", "abc"], 5, 7, "alice", ""⟩ =
      (.ok ⟨"❌ Invalid amount format. Please provide a number.", 7, 5, []⟩, []) :=
  buy_invalid_amount stubDerivEnv ⟨"buy", ["R_50", "abc"], 5, 7, "alice", ""⟩
    "R_50" "abc" [] rfl rfl (by decide)

/-- C6: for every `/buy <symbol> <amount>` invocation with a parseable
amount and no callback data, the response carries exactly one button row
with exactly the two buttons `trade:<symbol>:<amount %.2f>:up` and
`trade:<symbol>:<amount %.2f>:down`, and no collaborator call occurs. -/
theorem buy_step1_buttons (denv : DerivEnv) (msg : Message) (sym amt : String)
    (rest : List String) (d : Dec) (hcb : msg.CallbackData = "")
    (hargs : msg.Args = sym :: amt :: rest) (hparse : parseFloat amt = some d) :
    handleBuy denv msg =
      (.ok ⟨"🎯 Place a trade for " ++ sym ++ ": $" ++ formatF2 d ++ "\nSelect direction:",
            msg.MessageID, msg.ChatID,
            [[⟨"Up ⬆️", "trade:" ++ sym ++ ":" ++ formatF2 d ++ ":up"⟩,
              ⟨"Down ⬇️", "trade:" ++ sym ++ ":" ++ formatF2 d ++ ":down"⟩]]⟩,
       []) := by
  simp [handleBuy, hcb, hargs, hparse]

/-- Witness for C6: `/buy R_50 10.5` yields the `10.50`-formatted tokens. -/
theorem buy_step1_buttons_witness :
    handleBuy stubDerivEnv ⟨"buy", ["R_50", "10.5"], 5, 7, "alice", ""⟩ =
      (.ok ⟨"🎯 Place a trade for " ++ "R_50" ++ ": $" ++ formatF2 ⟨105, -1⟩ ++
              "\nSelect direction:", 7, 5,
            [[⟨"Up ⬆️", "trade:" ++ "R_50" ++ ":" ++ formatF2 ⟨105, -1⟩ ++ ":up"⟩,
              ⟨"Down ⬇️", "trade:" ++ "R_50" ++ ":" ++ formatF2 ⟨105, -1⟩ ++ ":down"⟩]]⟩,
       []) :=
  buy_step1_buttons stubDerivEnv ⟨"buy", ["R_50", "10.5"], 5, 7, "alice", ""⟩
    "R_50" "10.5" [] ⟨105, -1⟩ rfl rfl (by decide)

/-- C8 counterexample: a callback whose decoded action is not `trade` makes
`handleBuy` return an error (a dispatch fault), not a normal response with
explanatory text; no collaborator call is attempted. -/
theorem foreign_callback_counterexample :
    handleBuy stubDerivEnv ⟨"", [], 5, 7, "alice", "foo:R_50:10:up"⟩ =
      (.error "invalid callback action: foo", []) := by decide

/-- C8 (amended): for every callback whose decoded action field is not
`trade`, the buy handler attempts no collaborator call (in particular no
PlaceTrade) but propagates the condition as an error to the dispatcher
(`invalid callback action: ...`) instead of producing a normal response. -/
theorem foreign_callback_is_fault (env : DerivEnv) (msg : Message)
    (hcb : msg.CallbackData ≠ "")
    (hact : ParseCallbackData msg.CallbackData "action" ≠ "trade") :
    handleBuy env msg =
      (.error ("invalid callback action: " ++ ParseCallbackData msg.CallbackData "action"),
       []) := by
  simp [handleBuy, hcb, hact]

/-- Witness for C8 (amended) at a concrete foreign callback. -/
theorem foreign_callback_is_fault_witness :
    handleBuy stubDerivEnv ⟨"", [], 1, 2, "alice", "chart:R_50"⟩ =
      (.error ("invalid callback action: " ++ ParseCallbackData "chart:R_50" "action"),
       []) :=
  foreign_callback_is_fault stubDerivEnv ⟨"", [], 1, 2, "alice", "chart:R_50"⟩
    (by decide) (by decide)

/-- C10: for every callback message with decoded action `trade` and a
parseable amount, the direction passed to the single PlaceTrade call is
`PUT` exactly when the raw callback data ends with `:down`, and `CALL`
otherwise — whatever the token's direction field says. -/
theorem direction_from_raw_suffix (denv : DerivEnv) (msg : Message) (d : Dec)
    (hcb : msg.CallbackData ≠ "")
    (hact : ParseCallbackData msg.CallbackData "action" = "trade")
    (hamt : parseFloat (ParseCallbackData msg.CallbackData "amount") = some d) :
    (handleBuy denv msg).2 =
      [.placeTrade (ParseCallbackData msg.CallbackData "symbol") d
        (if hasSuffixStr msg.CallbackData ":down" then "PUT" else "CALL")] := by
  cases hpt : denv.PlaceTrade (ParseCallbackData msg.CallbackData "symbol") d
      (if hasSuffixStr msg.CallbackData ":down" then "PUT" else "CALL") with
  | error e => simp [handleBuy, hcb, hact, hamt, hpt]
  | ok u => simp [handleBuy, hcb, hact, hamt, hpt]

/-- Witness for C10: the non-directions `:sideways` and `:Down` both place
a CALL trade (only the exact suffix `:down` yields PUT). -/
theorem direction_from_raw_suffix_witness :
    (handleBuy stubDerivEnv ⟨"", [], 1, 2, "alice", "trade:R_50:10.50:sideways"⟩).2 =
      [.placeTrade "R_50" ⟨1050, -2⟩ "CALL"] ∧
    (handleBuy stubDerivEnv ⟨"", [], 1, 2, "alice", "trade:R_50:10.50:Down"⟩).2 =
      [.placeTrade "R_50" ⟨1050, -2⟩ "CALL"] := by
  constructor
  · rw [direction_from_raw_suffix stubDerivEnv _ ⟨1050, -2⟩ (by decide) (by decide)
      (by decide)]
    decide
  · rw [direction_from_raw_suffix stubDerivEnv _ ⟨1050, -2⟩ (by decide) (by decide)
      (by decide)]
    decide

/-- Helper: the `:up` token written with its direction as a separate
field. -/
theorem token_up_eq (sym amt : String) :
    "trade:" ++ sym ++ ":" ++ amt ++ ":up" =
      "trade:" ++ sym ++ ":" ++ amt ++ ":" ++ "up" := by
  refine strExt ?_
  simp [strData_append]

/-- Helper: the `:down` token written with its direction as a separate
field. -/
theorem token_down_eq (sym amt : String) :
    "trade:" ++ sym ++ ":" ++ amt ++ ":down" =
      "trade:" ++ sym ++ ":" ++ amt ++ ":" ++ "down" := by
  refine strExt ?_
  simp [strData_append]

/-- Helper: a trade token is never the empty string. -/
theorem token_ne_empty (sym amt dir : String) :
    "trade:" ++ sym ++ ":" ++ amt ++ dir ≠ "" := by
  intro h
  have h2 := congrArg String.data h
  simp [strData_append] at h2

/-- C3: for every authorized message carrying non-empty callback data whose
decoded action is `trade`, dispatch routes the message to the buy handler,
and the trade is completed from the token's decoded symbol, amount and
direction alone — the textual `Args` play no part (the conclusion does not
depend on them). -/
theorem callback_trade_routes_to_buy (b : Bot) (denv : DerivEnv) (lenv : LLMEnv)
    (msg : Message) (d : Dec)
    (hauth : isUserAllowed b msg.Username = true)
    (hcb : msg.CallbackData ≠ "")
    (hact : ParseCallbackData msg.CallbackData "action" = "trade")
    (hamt : parseFloat (ParseCallbackData msg.CallbackData "amount") = some d)
    (hok : denv.PlaceTrade (ParseCallbackData msg.CallbackData "symbol") d
        (if hasSuffixStr msg.CallbackData ":down" then "PUT" else "CALL") = .ok ()) :
    ProcessMessage b denv lenv msg = handleBuy denv msg ∧
    ProcessMessage b denv lenv msg =
      (.ok ⟨"✅ " ++ (if hasSuffixStr msg.CallbackData ":down" then "⬇️" else "⬆️") ++
              " Trade placed for " ++ ParseCallbackData msg.CallbackData "symbol" ++
              ": $" ++ formatF2 d, msg.MessageID, msg.ChatID, []⟩,
       [.placeTrade (ParseCallbackData msg.CallbackData "symbol") d
          (if hasSuffixStr msg.CallbackData ":down" then "PUT" else "CALL")]) := by
  have hroute : ProcessMessage b denv lenv msg = handleBuy denv msg := by
    unfold ProcessMessage
    rw [hauth]
    simp [hcb, hact]
  refine ⟨hroute, hroute.trans ?_⟩
  by_cases hsfx : hasSuffixStr msg.CallbackData ":down" = true
  · rw [if_pos hsfx] at hok
    simp [handleBuy, hcb, hact, hamt, hsfx, hok]
  · have hsfx' : hasSuffixStr msg.CallbackData ":down" = false := by
      revert hsfx
      cases hasSuffixStr msg.CallbackData ":down" <;> simp
    rw [hsfx'] at hok
    simp at hok
    simp [handleBuy, hcb, hact, hamt, hsfx', hok]

/-- Witness for C3: an authorized click on the `up` button. -/
theorem callback_trade_routes_to_buy_witness :
    ProcessMessage ⟨["alice"], []⟩ stubDerivEnv stubLLMEnv
        ⟨"", [], 5, 7, "alice", "trade:R_50:10.50:up"⟩ =
      (.ok ⟨"✅ " ++ (if hasSuffixStr "trade:R_50:10.50:up" ":down" then "⬇️" else "⬆️") ++
              " Trade placed for " ++ ParseCallbackData "trade:R_50:10.50:up" "symbol" ++
              ": $" ++ formatF2 ⟨1050, -2⟩, 7, 5, []⟩,
       [.placeTrade (ParseCallbackData "trade:R_50:10.50:up" "symbol") ⟨1050, -2⟩
          (if hasSuffixStr "trade:R_50:10.50:up" ":down" then "PUT" else "CALL")]) :=
  (callback_trade_routes_to_buy ⟨["alice"], []⟩ stubDerivEnv stubLLMEnv
    ⟨"", [], 5, 7, "alice", "trade:R_50:10.50:up"⟩ ⟨1050, -2⟩
    (by decide) (by decide) (by decide) (by decide) (by decide)).2

/-- C4: for the `up` button of a `trade:<symbol>:<amount>:up` token the
direction is mapped to CALL (and for the `down` button to PUT), exactly one
PlaceTrade call with the decoded symbol and amount is made, and on success
the reply contains the matching arrow glyph and `$` followed by the
two-decimal amount. -/
theorem buy_callback_direction_and_reply (denv : DerivEnv) (sym amt : String) (d : Dec)
    (hsym : ':' ∉ sym.data) (hamtc : ':' ∉ amt.data) (hparse : parseFloat amt = some d) :
    (∀ msg : Message, msg.CallbackData = "trade:" ++ sym ++ ":" ++ amt ++ ":up" →
      denv.PlaceTrade sym d "CALL" = .ok () →
      handleBuy denv msg =
        (.ok ⟨"✅ " ++ "⬆️" ++ " Trade placed for " ++ sym ++ ": $" ++ formatF2 d,
              msg.MessageID, msg.ChatID, []⟩, [.placeTrade sym d "CALL"]) ∧
      containsStr ("✅ " ++ "⬆️" ++ " Trade placed for " ++ sym ++ ": $" ++ formatF2 d)
        "⬆️" ∧
      containsStr ("✅ " ++ "⬆️" ++ " Trade placed for " ++ sym ++ ": $" ++ formatF2 d)
        ("$" ++ formatF2 d)) ∧
    (∀ msg : Message, msg.CallbackData = "trade:" ++ sym ++ ":" ++ amt ++ ":down" →
      denv.PlaceTrade sym d "PUT" = .ok () →
      handleBuy denv msg =
        (.ok ⟨"✅ " ++ "⬇️" ++ " Trade placed for " ++ sym ++ ": $" ++ formatF2 d,
              msg.MessageID, msg.ChatID, []⟩, [.placeTrade sym d "PUT"]) ∧
      containsStr ("✅ " ++ "⬇️" ++ " Trade placed for " ++ sym ++ ": $" ++ formatF2 d)
        "⬇️" ∧
      containsStr ("✅ " ++ "⬇️" ++ " Trade placed for " ++ sym ++ ": $" ++ formatF2 d)
        ("$" ++ formatF2 d)) := by
  constructor
  · intro msg hmsg hok
    have hf := parseCallback_fields sym amt "up" hsym hamtc (by decide)
    simp only [← token_up_eq] at hf
    have hne : msg.CallbackData ≠ "" := by
      rw [hmsg]; exact token_ne_empty sym amt ":up"
    have hsfx : hasSuffixStr msg.CallbackData ":down" = false := by
      rw [hmsg]; exact hasSuffix_up_not_down ("trade:" ++ sym ++ ":" ++ amt)
    have hact : ParseCallbackData msg.CallbackData "action" = "trade" := by
      rw [hmsg]; exact hf.1
    have hsymf : ParseCallbackData msg.CallbackData "symbol" = sym := by
      rw [hmsg]; exact hf.2.1
    have hamt2 : parseFloat (ParseCallbackData msg.CallbackData "amount") = some d := by
      rw [hmsg, hf.2.2.1]; exact hparse
    refine ⟨?_, ?_, ?_⟩
    · simp [handleBuy, hne, hact, hsymf, hamt2, hsfx, hok]
    · exact ⟨"✅ ".data,
        (" Trade placed for " ++ sym ++ ": $" ++ formatF2 d).data,
        by simp [strData_append, List.append_assoc]⟩
    · refine ⟨("✅ " ++ "⬆️" ++ " Trade placed for " ++ sym).data ++ [':', ' '], [], ?_⟩
      simp [strData_append, List.append_assoc]
  · intro msg hmsg hok
    have hf := parseCallback_fields sym amt "down" hsym hamtc (by decide)
    simp only [← token_down_eq] at hf
    have hne : msg.CallbackData ≠ "" := by
      rw [hmsg]; exact token_ne_empty sym amt ":down"
    have hsfx : hasSuffixStr msg.CallbackData ":down" = true := by
      rw [hmsg]; exact hasSuffix_down ("trade:" ++ sym ++ ":" ++ amt)
    have hact : ParseCallbackData msg.CallbackData "action" = "trade" := by
      rw [hmsg]; exact hf.1
    have hsymf : ParseCallbackData msg.CallbackData "symbol" = sym := by
      rw [hmsg]; exact hf.2.1
    have hamt2 : parseFloat (ParseCallbackData msg.CallbackData "amount") = some d := by
      rw [hmsg, hf.2.2.1]; exact hparse
    refine ⟨?_, ?_, ?_⟩
    · simp [handleBuy, hne, hact, hsymf, hamt2, hsfx, hok]
    · exact ⟨"✅ ".data,
        (" Trade placed for " ++ sym ++ ": $" ++ formatF2 d).data,
        by simp [strData_append, List.append_assoc]⟩
    · refine ⟨("✅ " ++ "⬇️" ++ " Trade placed for " ++ sym).data ++ [':', ' '], [], ?_⟩
      simp [strData_append, List.append_assoc]

/-- Witness for C4: the scenario `trade:R_50:10.50:up` places
`PlaceTrade("R_50", 10.50, "CALL")` and replies with the up arrow and
`$10.50`. -/
theorem buy_callback_direction_and_reply_witness :
    handleBuy stubDerivEnv ⟨"", [], 1, 2, "alice", "trade:R_50:10.50:up"⟩ =
      (.ok ⟨"✅ " ++ "⬆️" ++ " Trade placed for " ++ "R_50" ++ ": $" ++ formatF2 ⟨1050, -2⟩,
            2, 1, []⟩, [.placeTrade "R_50" ⟨1050, -2⟩ "CALL"]) :=
  ((buy_callback_direction_and_reply stubDerivEnv "R_50" "10.50" ⟨1050, -2⟩
      (by decide) (by decide) (by decide)).1
    ⟨"", [], 1, 2, "alice", "trade:R_50:10.50:up"⟩ (by decide) (by decide)).1

/-- C7 counterexample: for a symbol containing a colon — which step 1 of
`/buy` accepts — the encode/decode round trip does not return the same
symbol: `a:b` comes back as `a`. -/
theorem token_roundTrip_counterexample :
    parseFloat "1" = some ⟨1, 0⟩ ∧
    ParseCallbackData ("trade:" ++ "a:b" ++ ":" ++ formatF2 ⟨1, 0⟩ ++ ":up") "symbol" ≠
      "a:b" := by decide

/-- C7 (amended): for every `(symbol, amount)` pair accepted by step 1 of
`/buy` whose symbol contains no colon, encoding the callback token and
decoding it in step 2 yields the same symbol and an amount equal to the
original rounded to two decimal places (ties to even). -/
theorem token_roundTrip (sym : String) (hsym : ':' ∉ sym.data) (amtStr : String)
    (d : Dec) (_hacc : parseFloat amtStr = some d) (dir : String)
    (hdir : dir = "up" ∨ dir = "down") :
    ParseCallbackData ("trade:" ++ sym ++ ":" ++ formatF2 d ++ ":" ++ dir) "symbol" = sym ∧
    parseFloat
        (ParseCallbackData ("trade:" ++ sym ++ ":" ++ formatF2 d ++ ":" ++ dir) "amount") =
      some (round2 d) := by
  have hdirc : ':' ∉ dir.data := by
    rcases hdir with h | h <;> rw [h] <;> decide
  have hf := parseCallback_fields sym (formatF2 d) dir hsym (colon_not_mem_formatF2 d) hdirc
  exact ⟨hf.2.1, by rw [hf.2.2.1, parseFloat_formatF2]⟩

/-- Witness for C7 (amended): `/buy R_50 10.5` rounds to `10.50` and
round-trips. -/
theorem token_roundTrip_witness :
    ParseCallbackData ("trade:" ++ "R_50" ++ ":" ++ formatF2 ⟨105, -1⟩ ++ ":" ++ "up")
        "symbol" = "R_50" ∧
    parseFloat
        (ParseCallbackData ("trade:" ++ "R_50" ++ ":" ++ formatF2 ⟨105, -1⟩ ++ ":" ++ "up")
          "amount") =
      some (round2 ⟨105, -1⟩) :=
  token_roundTrip "R_50" (by decide) "10.5" ⟨105, -1⟩ (by decide) "up" (Or.inl rfl)

/-- C9: the tool bridge rejects unknown function names and missing/non-string
symbols (for both tools), and defaults missing or wrongly-typed
interval/style/count arguments of `get_historical_data` to
`hour`/`candles`/`10`. -/
theorem executeFunction_argument_policy (provider : MarketDataProvider) :
    (∀ call : LLMFunctionCall, call.Name ≠ "get_price" →
      call.Name ≠ "get_historical_data" →
      executeFunction provider call = (.error ("unknown function: " ++ call.Name), [])) ∧
    (∀ args, argString args "symbol" = none →
      executeFunction provider ⟨"get_price", args⟩ =
        (.error "invalid symbol argument", [])) ∧
    (∀ args, argString args "symbol" = none →
      executeFunction provider ⟨"get_historical_data", args⟩ =
        (.error "invalid symbol argument", [])) ∧
    (∀ args sym pts, argString args "symbol" = some sym →
      argString args "interval" = none → argString args "style" = none →
      argNum args "count" = none →
      provider.GetHistoricalData ⟨sym, "hour", "candles", 10⟩ = .ok pts →
      executeFunction provider ⟨"get_historical_data", args⟩ =
        (.ok (formatHistoricalData sym "hour" "candles" pts),
         [.getHistoricalData ⟨sym, "hour", "candles", 10⟩])) := by
  have h10 : f64toInt ⟨10, 0⟩ = 10 := by decide
  refine ⟨?_, ?_, ?_, ?_⟩
  · intro call h1 h2
    simp [executeFunction, h1, h2]
  · intro args hs
    simp [executeFunction, hs]
  · intro args hs
    simp [executeFunction, hs]
  · intro args sym pts hs hi hst hc hdata
    simp [executeFunction, hs, hi, hst, hc, h10, hdata]

/-- Witness for C9: an unknown function errors; `get_historical_data` with
only a symbol succeeds with the default request (interval `hour`, style
`candles`, count `10`). -/
theorem executeFunction_argument_policy_witness :
    executeFunction stubDerivEnv.toMarketDataProvider ⟨"foo", []⟩ =
      (.error ("unknown function: " ++ "foo"), []) ∧
    executeFunction stubDerivEnv.toMarketDataProvider
        ⟨"get_historical_data", [("symbol", JSONValue.str "R_50")]⟩ =
      (.ok (formatHistoricalData "R_50" "hour" "candles" []),
       [.getHistoricalData ⟨"R_50", "hour", "candles", 10⟩]) :=
  ⟨(executeFunction_argument_policy stubDerivEnv.toMarketDataProvider).1
      ⟨"foo", []⟩ (by decide) (by decide),
   (executeFunction_argument_policy stubDerivEnv.toMarketDataProvider).2.2.2
      [("symbol", JSONValue.str "R_50")] "R_50" [] rfl rfl rfl rfl rfl⟩

/-! ### Ground checks of the embedding on concrete values -/

theorem groundCheck_parseFloat :
    parseFloat "10.5" = some ⟨105, -1⟩ ∧ parseFloat "10.50" = some ⟨1050, -2⟩ ∧
    parseFloat "abc" = none ∧ parseFloat "" = none ∧ parseFloat "." = none ∧
    parseFloat "1e" = none ∧ parseFloat ".5" = some ⟨5, -1⟩ ∧
    parseFloat "5." = some ⟨5, 0⟩ ∧ parseFloat "-2.5e1" = some ⟨-25, 0⟩ := by decide

theorem groundCheck_formatF2 :
    formatF2 ⟨105, -1⟩ = "10.50" ∧ formatF2 ⟨1, 0⟩ = "1.00" ∧
    formatF2 ⟨-125, -3⟩ = "-0.12" ∧ formatF2 ⟨135, -3⟩ = "0.14" ∧
    round2 ⟨105, -1⟩ = ⟨1050, -2⟩ := by decide

theorem groundCheck_callbackToken :
    ParseCallbackData "trade:R_50:10.50:up" "amount" = "10.50" ∧
    ParseCallbackData "trade:R_50:10.50:up" "action" = "trade" ∧
    hasSuffixStr "trade:R_50:10.50:up" ":down" = false ∧
    hasSuffixStr "trade:R_50:10.50:down" ":down" = true := by decide

theorem groundCheck_dispatch :
    ProcessMessage ⟨["alice"], []⟩ stubDerivEnv stubLLMEnv { Username := "bob" } =
      (.ok ⟨"⚠️ You are not authorized to use this bot.", 0, 0, []⟩, []) ∧
    handleBuy stubDerivEnv { Args := ["R_50", "10.5"] } =
      (.ok ⟨"🎯 Place a trade for R_50: $10.50\nSelect direction:", 0, 0,
        [[⟨"Up ⬆️", "trade:R_50:10.50:up"⟩, ⟨"Down ⬇️", "trade:R_50:10.50:down"⟩]]⟩,
       []) := by decide

end DerivTeletrader
